import Mathlib

/-!
Shallow embedding of the battery-calculator core (src/src/utils/calculations.ts
and the scenario/situation module) in Lean 4, with theorems settling the
frozen claims about the simulation and scenario-ranking engine.

JS numbers are modelled as rationals (`ℚ`); the JS `%` operator on integers is
`Int.tmod` (remainder with the sign of the dividend); `Math.floor` is
`Int.floor`; `Math.round (x * 10) / 10` is `round1`; the float `Infinity`
used internally for `hoursRemaining` / `chargeTime` / minimum-tracking is
modelled as `none : Option ℚ` together with the comparison `qinfLt` that
mirrors the JS `<` on possibly-infinite values.
-/

namespace BatteryCalc

/-- One decimal rounding, JS `Math.round (x * 10) / 10` (round half towards +∞). -/
def round1 (x : ℚ) : ℚ := (⌊x * 10 + 1/2⌋ : ℚ) / 10

/-- JS `a < b` where `none` stands for `Infinity` (so `Infinity < Infinity` is false). -/
def qinfLt : Option ℚ → Option ℚ → Bool
  | some a, some b => decide (a < b)
  | some _, none => true
  | none, _ => false

/-- JS `a <= b` on possibly-infinite values, i.e. `¬ (b < a)`. -/
def qinfLe (a b : Option ℚ) : Bool := !qinfLt b a

structure BatterySettings where
  capacity : ℚ
  minDischarge : ℚ
  maxCharge : ℚ
  currentCharge : ℚ
  chargingPower : ℚ
deriving DecidableEq

structure TimeRange where
  start : ℚ
  «end» : ℚ
deriving DecidableEq

structure Appliance where
  id : String
  name : String
  nameUa : String
  icon : String
  power : ℚ
  enabled : Bool
  color : String
  schedule : List TimeRange
deriving DecidableEq

structure PowerSchedule where
  periods : List TimeRange
deriving DecidableEq

structure TimelinePoint where
  time : ℤ
  batteryLevel : ℚ
  consumption : ℚ
  charging : Bool
  appliances : List String
deriving DecidableEq

structure CalculationResult where
  usableEnergy : ℚ
  currentAvailableEnergy : ℚ
  currentConsumption : ℚ
  hoursRemaining : ℚ
  chargeTime : ℚ
  timelineData : List TimelinePoint
  canSurviveOutage : Bool
  recommendations : List String
deriving DecidableEq

/-- `isPowerAvailable` from calculations.ts. -/
def isPowerAvailable (hour : ℚ) (periods : List TimeRange) : Bool :=
  if periods.length = 0 then false
  else periods.any fun period =>
    if period.start ≤ period.«end» then
      decide (period.start ≤ hour) && decide (hour < period.«end»)
    else
      decide (period.start ≤ hour) || decide (hour < period.«end»)

/-- `isApplianceActive` from calculations.ts. -/
def isApplianceActive (appliance : Appliance) (hour : ℚ) : Bool :=
  if appliance.schedule.length = 0 then true
  else appliance.schedule.any fun range =>
    if range.start ≤ range.«end» then
      decide (range.start ≤ hour) && decide (hour < range.«end»)
    else
      decide (range.start ≤ hour) || decide (hour < range.«end»)

/-- The appliances filtered as active at a given hour inside the timeline loop. -/
def activeAppliancesAt (appliances : List Appliance) (hour : ℚ) : List Appliance :=
  appliances.filter fun a => a.enabled && isApplianceActive a hour

/-- One battery-level update of the timeline loop: charge (clamped at `maxCharge`)
when grid power is on, else discharge (clamped at `minDischarge`). -/
def stepLevel (battery : BatterySettings) (isPowerOn : Bool)
    (batteryConsumption level : ℚ) : ℚ :=
  if isPowerOn then
    min battery.maxCharge (level + battery.chargingPower / battery.capacity * 100)
  else
    max battery.minDischarge (level - batteryConsumption / battery.capacity * 100)

/-- The `for (let i = 0; i < 24; i++)` loop of `generateTimeline`, with the loop
index `i`, remaining iterations, and running `batteryLevel` made explicit. -/
def timelineLoop (battery : BatterySettings) (appliances : List Appliance)
    (powerPeriods : List TimeRange) (startHour : ℤ) :
    ℕ → ℕ → ℚ → List TimelinePoint
  | _, 0, _ => []
  | i, fuel+1, batteryLevel =>
    let hour : ℤ := (startHour + (i : ℤ)).tmod 24
    let isPowerOn := isPowerAvailable (hour : ℚ) powerPeriods
    let activeAppliances := activeAppliancesAt appliances (hour : ℚ)
    let applianceConsumption := activeAppliances.foldl (fun sum a => sum + a.power) 0
    let batteryConsumption := if isPowerOn then 0 else applianceConsumption
    let newLevel := stepLevel battery isPowerOn batteryConsumption batteryLevel
    { time := hour
      batteryLevel := round1 newLevel
      consumption := batteryConsumption
      charging := isPowerOn
      appliances := activeAppliances.map fun a => a.nameUa } ::
      timelineLoop battery appliances powerPeriods startHour (i+1) fuel newLevel

/-- `generateTimeline` from calculations.ts. -/
def generateTimeline (battery : BatterySettings) (appliances : List Appliance)
    (powerPeriods : List TimeRange) (currentHour : ℚ) : List TimelinePoint :=
  timelineLoop battery appliances powerPeriods ⌊currentHour⌋ 0 24 battery.currentCharge

/-- `checkSurvival` from calculations.ts. -/
def checkSurvival (timeline : List TimelinePoint) (minDischarge : ℚ) : Bool :=
  timeline.all fun point => decide (minDischarge < point.batteryLevel)

/-- The per-period waiting time used in `generateRecommendations`:
`period.start - currentHour`, plus 24 when the raw subtraction is ≤ 0. -/
def nextOnDelta (currentHour : ℚ) (period : TimeRange) : ℚ :=
  let hours := period.start - currentHour
  if hours ≤ 0 then hours + 24 else hours

/-- The `hoursUntilPowerOn` computation inside `generateRecommendations`
(0 when the grid is on at `currentHour`, else the running minimum of the
corrected deltas over all periods, starting from `Infinity`). -/
def hoursUntilPowerOn (powerPeriods : List TimeRange) (currentHour : ℚ) : Option ℚ :=
  if isPowerAvailable currentHour powerPeriods then some 0
  else powerPeriods.foldl
    (fun acc period =>
      if qinfLt (some (nextOnDelta currentHour period)) acc then
        some (nextOnDelta currentHour period)
      else acc)
    none

def recWarnDeplete : String :=
  "⚠️ При поточному споживанні батарея розрядиться до увімкнення світла"

def recWarnLowCharge : String :=
  "🔋 Низький заряд батареї. Рекомендується знизити споживання"

def recWarnUnder4 : String :=
  "⏰ Залишилось менше 4 годин роботи. Вимкніть некритичні прилади"

def recSuggestOff (names : String) : String :=
  "💡 Розгляньте вимкнення: " ++ names

def recWarnShed : String :=
  "🔌 Батареї не вистачить до увімкнення світла. Потрібно вимкнути частину приладів"

def recOkOptimal : String :=
  "✅ Система працює в оптимальному режимі"

/-- `generateRecommendations` from calculations.ts. `hoursRemaining` is the
pre-sentinel value (`none` is the JS `Infinity`). -/
def generateRecommendations (battery : BatterySettings) (appliances : List Appliance)
    (hoursRemaining : Option ℚ) (canSurvive : Bool)
    (powerPeriods : List TimeRange) (currentHour : ℚ) : List String :=
  let recs1 : List String := if canSurvive then [] else [recWarnDeplete]
  let recs2 := recs1 ++ (if battery.currentCharge < 50 then [recWarnLowCharge] else [])
  let recs3 := recs2 ++
    (if qinfLt hoursRemaining (some 4) && qinfLt hoursRemaining none then
      [recWarnUnder4] else [])
  let enabledAppliances := appliances.filter fun a => a.enabled
  let highPowerAppliances := enabledAppliances.filter fun a => decide (1 < a.power)
  let recs4 := recs3 ++
    (if 0 < highPowerAppliances.length ∧ battery.currentCharge < 40 then
      [recSuggestOff (String.intercalate ", " (highPowerAppliances.map fun a => a.nameUa))]
    else [])
  let recs5 := recs4 ++
    (if qinfLt hoursRemaining (hoursUntilPowerOn powerPeriods currentHour)
        && decide (1 < enabledAppliances.length) then
      [recWarnShed] else [])
  if recs5.length = 0 then [recOkOptimal] else recs5

/-- `calculateBatteryStatus` from calculations.ts. -/
def calculateBatteryStatus (battery : BatterySettings) (appliances : List Appliance)
    (powerSchedule : PowerSchedule) (currentHour : ℚ) : CalculationResult :=
  let usablePercentage := battery.maxCharge - battery.minDischarge
  let usableEnergy := battery.capacity * usablePercentage / 100
  let currentAvailableEnergy :=
    battery.capacity * max 0 (battery.currentCharge - battery.minDischarge) / 100
  let isPowerOnNow := isPowerAvailable ((⌊currentHour⌋ : ℤ) : ℚ) powerSchedule.periods
  let enabledAppliances := appliances.filter fun a => a.enabled
  let activeNow := enabledAppliances.filter fun a => isApplianceActive a currentHour
  let applianceConsumption := activeNow.foldl (fun sum a => sum + a.power) 0
  let currentConsumption := if isPowerOnNow then 0 else applianceConsumption
  let hoursRemaining : Option ℚ :=
    if 0 < currentConsumption then some (max 0 (currentAvailableEnergy / currentConsumption))
    else none
  let energyToFull := battery.capacity * (battery.maxCharge - battery.currentCharge) / 100
  let chargeTime : Option ℚ :=
    if 0 < battery.chargingPower then some (energyToFull / battery.chargingPower) else none
  let timelineData := generateTimeline battery appliances powerSchedule.periods currentHour
  let canSurviveOutage := checkSurvival timelineData battery.minDischarge
  let recommendations := generateRecommendations battery appliances hoursRemaining
    canSurviveOutage powerSchedule.periods currentHour
  { usableEnergy := usableEnergy
    currentAvailableEnergy := currentAvailableEnergy
    currentConsumption := currentConsumption
    hoursRemaining := hoursRemaining.getD 999
    chargeTime := chargeTime.getD 999
    timelineData := timelineData
    canSurviveOutage := canSurviveOutage
    recommendations := recommendations }

/-! The scenario / situation module (`analyzeSituation`, `generateScenarios`). -/

inductive Tag
  | comfort
  | balanced
  | economy
  | emergency
deriving DecidableEq

structure Scenario where
  id : String
  name : String
  description : String
  icon : String
  tag : Tag
  appliances : List Appliance
  feasible : Bool
  minBatteryLevel : ℚ
  minBatteryTime : ℤ
  energyUsedKwh : ℚ
deriving DecidableEq

structure SituationSummary where
  batteryPercent : ℚ
  availableEnergyKwh : ℚ
  totalOutageHours : ℕ
  isPowerOnNow : Bool
  hoursToNextPowerOn : ℕ
  hoursToNextOutage : ℕ
deriving DecidableEq

instance : Inhabited Appliance := ⟨⟨"", "", "", "", 0, false, "", []⟩⟩

instance : Inhabited Scenario := ⟨⟨"", "", "", "", Tag.comfort, [], false, 0, 0, 0⟩⟩

/-- `isPowerOn` from the scenario module (same logic as `isPowerAvailable`). -/
def isPowerOn (hour : ℚ) (periods : List TimeRange) : Bool :=
  if periods.length = 0 then false
  else periods.any fun p =>
    if p.start ≤ p.«end» then decide (p.start ≤ hour) && decide (hour < p.«end»)
    else decide (p.start ≤ hour) || decide (hour < p.«end»)

/-- An entry of the JS override record: optional `enabled` flag and optional
schedule replacement. -/
structure Override where
  enabled : Option Bool
  schedule : Option (List TimeRange)
deriving DecidableEq

/-- `applyOverrides`: clone base appliances and override enabled / schedule for
specific ids. -/
def applyOverrides (base : List Appliance)
    (overrides : List (String × Override)) : List Appliance :=
  base.map fun a =>
    match overrides.find? (fun o => o.1 == a.id) with
    | none => a
    | some (_, o) =>
      { a with enabled := o.enabled.getD a.enabled, schedule := o.schedule.getD a.schedule }

structure SimMetrics where
  feasible : Bool
  minLevel : ℚ
  minTime : ℤ
  energyUsed : ℚ
deriving DecidableEq

/-- `simulate` from the scenario module: run the full 24-h simulation and
extract key metrics.  The running minimum starts at the JS `Infinity`
(modelled as `none`); the timeline always has 24 points, so the minimum is
always attained (the `none` fallback is unreachable). -/
def simulate (battery : BatterySettings) (appliances : List Appliance)
    (powerSchedule : PowerSchedule) (currentHour : ℚ) : SimMetrics :=
  let result := calculateBatteryStatus battery appliances powerSchedule currentHour
  let mm := result.timelineData.foldl
    (fun (acc : Option ℚ × ℤ) p =>
      if qinfLt (some p.batteryLevel) acc.1 then (some p.batteryLevel, p.time) else acc)
    (none, 0)
  let energyUsed := (result.timelineData.filter fun p => !p.charging).foldl
    (fun sum p => sum + p.consumption) 0
  { feasible := result.canSurviveOutage
    minLevel :=
      match mm.1 with
      | some m => round1 m
      | none => 0
    minTime := mm.2
    energyUsed := round1 energyUsed }

/-- `analyzeSituation` from the scenario module. -/
def analyzeSituation (battery : BatterySettings) (powerSchedule : PowerSchedule)
    (currentHour : ℚ) : SituationSummary :=
  let startHour : ℤ := ⌊currentHour⌋
  let availableEnergyKwh :=
    battery.capacity * max 0 (battery.currentCharge - battery.minDischarge) / 100
  let totalOutageHours :=
    ((List.range 24).filter fun (i : ℕ) =>
      !isPowerOn (((startHour + (i : ℤ)).tmod 24 : ℤ) : ℚ) powerSchedule.periods).length
  let isPowerOnNow := isPowerOn ((startHour : ℤ) : ℚ) powerSchedule.periods
  let hoursToNextPowerOn : ℕ :=
    if isPowerOnNow then 0
    else
      ((List.range' 1 24).find? fun (i : ℕ) =>
        isPowerOn (((startHour + (i : ℤ)).tmod 24 : ℤ) : ℚ) powerSchedule.periods).getD 24
  let hoursToNextOutage : ℕ :=
    if isPowerOnNow then
      ((List.range' 1 24).find? fun (i : ℕ) =>
        !isPowerOn (((startHour + (i : ℤ)).tmod 24 : ℤ) : ℚ) powerSchedule.periods).getD 0
    else 0
  { batteryPercent := battery.currentCharge
    availableEnergyKwh := round1 availableEnergyKwh
    totalOutageHours := totalOutageHours
    isPowerOnNow := isPowerOnNow
    hoursToNextPowerOn := hoursToNextPowerOn
    hoursToNextOutage := hoursToNextOutage }

/-- JS `toFixed(0)` (used only inside description strings); for the nonnegative
charge percentages that occur it agrees with rounding half away from zero. -/
def toFixed0 (q : ℚ) : String := toString ⌊q + 1/2⌋

/-- The `add` closure of `generateScenarios`: build one candidate scenario and
evaluate it through the simulator. -/
def buildScenario (battery : BatterySettings) (baseAppliances : List Appliance)
    (powerSchedule : PowerSchedule) (currentHour : ℚ)
    (id icon name : String) (tag : Tag) (description : String)
    (overrides : List (String × Override)) : Scenario :=
  let appliances := applyOverrides baseAppliances overrides
  let sim := simulate battery appliances powerSchedule currentHour
  { id := id
    name := name
    description := description
    icon := icon
    tag := tag
    appliances := appliances
    feasible := sim.feasible
    minBatteryLevel := sim.minLevel
    minBatteryTime := sim.minTime
    energyUsedKwh := sim.energyUsed }

/-- The candidate list of `generateScenarios`, in catalog-declaration order
(the order in which the source pushes them, before sorting). -/
def scenarioCandidates (battery : BatterySettings) (baseAppliances : List Appliance)
    (powerSchedule : PowerSchedule) (currentHour : ℚ) : List Scenario :=
  let startHour : ℤ := ⌊currentHour⌋
  let situation := analyzeSituation battery powerSchedule currentHour
  let isNight := 23 ≤ startHour ∨ startHour < 6
  let isMorning := 6 ≤ startHour ∧ startHour < 10
  let isDay := 10 ≤ startHour ∧ startHour < 17
  let isEvening := 17 ≤ startHour ∧ startHour < 23
  let batteryHigh := 70 ≤ battery.currentCharge
  let batteryMedium := 40 ≤ battery.currentCharge ∧ battery.currentCharge < 70
  let batteryLow := battery.currentCharge < 40
  let batteryCritical := battery.currentCharge < 20
  let totalOutageHours := situation.totalOutageHours
  let add := buildScenario battery baseAppliances powerSchedule currentHour
  (if batteryCritical ∧ 0 < totalOutageHours then
    [add "critical" "🚨" "Критичний режим" Tag.emergency
      ("Заряд лише " ++ toFixed0 battery.currentCharge ++
        "%! Тільки опалення для збереження тепла.")
      [("heating", ⟨some true, some []⟩),
       ("water", ⟨some false, none⟩),
       ("elevator", ⟨some false, none⟩),
       ("lighting", ⟨some false, none⟩)]]
  else
    [add "heating-only" "🔥" "Тільки опалення" Tag.emergency
      "Мінімальне споживання — лише опалення працює цілодобово."
      [("heating", ⟨some true, some []⟩),
       ("water", ⟨some false, none⟩),
       ("elevator", ⟨some false, none⟩),
       ("lighting", ⟨some false, none⟩)]])
  ++
  [add "basic-needs" "💧" "Опалення + вода" Tag.economy
    "Базові потреби: опалення та водопостачання працюють постійно."
    [("heating", ⟨some true, some []⟩),
     ("water", ⟨some true, some []⟩),
     ("elevator", ⟨some false, none⟩),
     ("lighting", ⟨some false, none⟩)]]
  ++
  (if 6 < totalOutageHours then
    [add "water-night-off" "🌙" "Нічна економія" Tag.economy
      "Вода вимкнена 23:00–6:00. Ліфт у години пік. Економить батарею вночі."
      [("heating", ⟨some true, some []⟩),
       ("water", ⟨some true, some [⟨6, 23⟩]⟩),
       ("elevator", ⟨some true, some [⟨7, 9⟩, ⟨18, 20⟩]⟩),
       ("lighting", ⟨some false, none⟩)]]
  else [])
  ++
  (if isDay ∨ isMorning then
    [add "workday" "💼" "Робочий день" Tag.economy
      "Вода вимкнена 9–17 (всі на роботі). Ліфт вранці та ввечері."
      [("heating", ⟨some true, some []⟩),
       ("water", ⟨some true, some [⟨0, 9⟩, ⟨17, 24⟩]⟩),
       ("elevator", ⟨some true, some [⟨7, 9⟩, ⟨17, 20⟩]⟩),
       ("lighting", ⟨some false, none⟩)]]
  else [])
  ++
  (if 12 ≤ totalOutageHours then
    [add "long-outage" "🔋" "Довгий блекаут" Tag.economy
      (toString totalOutageHours ++
        " год без світла. Вода лише вранці та ввечері. Суворий режим.")
      [("heating", ⟨some true, some []⟩),
       ("water", ⟨some true, some [⟨6, 9⟩, ⟨17, 22⟩]⟩),
       ("elevator", ⟨some true, some [⟨7, 9⟩, ⟨18, 20⟩]⟩),
       ("lighting", ⟨some false, none⟩)]]
  else [])
  ++
  [add "balanced" "⚖️" "Збалансований" Tag.balanced
    "Опалення та вода 24/7. Ліфт у годину пік (7–9, 18–20). Золота середина."
    [("heating", ⟨some true, some []⟩),
     ("water", ⟨some true, some []⟩),
     ("elevator", ⟨some true, some [⟨7, 9⟩, ⟨18, 20⟩]⟩),
     ("lighting", ⟨some false, none⟩)]]
  ++
  (if batteryHigh ∨ batteryMedium then
    [add "extended-elevator" "🏢" "Розширений ліфт" Tag.balanced
      "Ліфт працює довше: 6–10 та 17–22. Зручно для мешканців."
      [("heating", ⟨some true, some []⟩),
       ("water", ⟨some true, some []⟩),
       ("elevator", ⟨some true, some [⟨6, 10⟩, ⟨17, 22⟩]⟩),
       ("lighting", ⟨some false, none⟩)]]
  else [])
  ++
  (if isMorning ∨ (isNight ∧ 4 ≤ startHour) then
    [add "morning-rush" "🌅" "Ранковий пік" Tag.balanced
      "Ліфт працює вранці 6–10 для виходу на роботу. Освітлення під\x27їздів до 7:00."
      [("heating", ⟨some true, some []⟩),
       ("water", ⟨some true, some []⟩),
       ("elevator", ⟨some true, some [⟨6, 10⟩]⟩),
       ("lighting", ⟨some true, some [⟨0, 7⟩]⟩)]]
  else [])
  ++
  (if isNight ∨ isEvening then
    [add "night-light" "🌃" "Нічне освітлення" Tag.balanced
      "Освітлення під\x27їздів 18–7. Вода 5:00–24:00. Ліфт вимкнений."
      [("heating", ⟨some true, some []⟩),
       ("water", ⟨some true, some [⟨5, 24⟩]⟩),
       ("elevator", ⟨some false, none⟩),
       ("lighting", ⟨some true, some [⟨18, 24⟩, ⟨0, 7⟩]⟩)]]
  else [])
  ++
  (if isEvening ∨ isDay then
    [add "evening-comfort" "🌇" "Вечірній комфорт" Tag.comfort
      "Комфорт після роботи: ліфт 17–22, освітлення 18–23."
      [("heating", ⟨some true, some []⟩),
       ("water", ⟨some true, some []⟩),
       ("elevator", ⟨some true, some [⟨7, 9⟩, ⟨17, 22⟩]⟩),
       ("lighting", ⟨some true, some [⟨18, 23⟩]⟩)]]
  else [])
  ++
  [add "max-comfort" "✨" "Максимальний комфорт" Tag.comfort
    "Все на максимум: ліфт весь день (6–22), освітлення вечір та ніч."
    [("heating", ⟨some true, some []⟩),
     ("water", ⟨some true, some []⟩),
     ("elevator", ⟨some true, some [⟨6, 22⟩]⟩),
     ("lighting", ⟨some true, some [⟨17, 24⟩, ⟨0, 7⟩]⟩)]]
  ++
  (if batteryHigh ∧ (0 < totalOutageHours ∧ totalOutageHours ≤ 8) then
    [add "full-power" "⚡" "Повна потужність" Tag.comfort
      ("Батарея " ++ toFixed0 battery.currentCharge ++ "%! Усі прилади без обмежень 24/7.")
      [("heating", ⟨some true, some []⟩),
       ("water", ⟨some true, some []⟩),
       ("elevator", ⟨some true, some []⟩),
       ("lighting", ⟨some true, some []⟩)]]
  else [])
  ++
  (if (0 < totalOutageHours ∧ totalOutageHours ≤ 3) ∧ ¬batteryLow then
    [add "short-outage" "⏱️" "Короткий блекаут" Tag.comfort
      ("Лише " ++ toString totalOutageHours ++
        " год без світла — можна дозволити більше споживання.")
      [("heating", ⟨some true, some []⟩),
       ("water", ⟨some true, some []⟩),
       ("elevator", ⟨some true, some [⟨6, 23⟩]⟩),
       ("lighting", ⟨some true, some [⟨17, 24⟩, ⟨0, 7⟩]⟩)]]
  else [])

/-- The tier order used by the sort comparator. -/
def tagOrder : Tag → ℕ
  | Tag.comfort => 0
  | Tag.balanced => 1
  | Tag.economy => 2
  | Tag.emergency => 3

/-- The JS sort comparator: feasible first, then comfort → emergency. -/
def scenCmp (a b : Scenario) : ℤ :=
  if a.feasible ≠ b.feasible then (if a.feasible then -1 else 1)
  else (tagOrder a.tag : ℤ) - (tagOrder b.tag : ℤ)

/-- "a may come before b" for the comparator (comparator value ≤ 0); a stable
sort by `scenCmp` is exactly a stable sort by this total preorder. -/
def scenLE (a b : Scenario) : Prop := scenCmp a b ≤ 0

instance : DecidableRel scenLE := fun a b =>
  inferInstanceAs (Decidable (scenCmp a b ≤ 0))

instance : IsTotal Scenario scenLE :=
  ⟨fun a b => by
    unfold scenLE scenCmp
    rcases ha : a.feasible <;> rcases hb : b.feasible <;> simp [ha, hb] <;> omega⟩

instance : IsTrans Scenario scenLE :=
  ⟨fun a b c => by
    unfold scenLE scenCmp
    rcases ha : a.feasible <;> rcases hb : b.feasible <;> rcases hc : c.feasible <;>
      simp [ha, hb, hc] <;> omega⟩

/-- `generateScenarios` from the scenario module: the candidate catalog sorted
stably by the comparator (JS `Array.prototype.sort` is stable). -/
def generateScenarios (battery : BatterySettings) (baseAppliances : List Appliance)
    (powerSchedule : PowerSchedule) (currentHour : ℚ) : List Scenario :=
  List.insertionSort scenLE
    (scenarioCandidates battery baseAppliances powerSchedule currentHour)

/-! ## Helper lemmas -/

theorem round1_mono {x y : ℚ} (h : x ≤ y) : round1 x ≤ round1 y := by
  unfold round1
  have hf : ⌊x * 10 + 1/2⌋ ≤ ⌊y * 10 + 1/2⌋ := Int.floor_le_floor (by linarith)
  have hc : ((⌊x * 10 + 1/2⌋ : ℤ) : ℚ) ≤ ((⌊y * 10 + 1/2⌋ : ℤ) : ℚ) := by exact_mod_cast hf
  linarith

theorem round1_tenths (k : ℤ) : round1 ((k : ℚ) / 10) = (k : ℚ) / 10 := by
  unfold round1
  have h1 : (k : ℚ) / 10 * 10 + 1/2 = (k : ℚ) + 1/2 := by ring
  rw [h1, add_comm, Int.floor_add_int]
  norm_num

theorem foldl_add_power_nonneg (l : List Appliance) (hl : ∀ a ∈ l, 0 ≤ a.power) :
    ∀ init : ℚ, 0 ≤ init → 0 ≤ l.foldl (fun sum a => sum + a.power) init := by
  induction l with
  | nil => intro init h0; simpa using h0
  | cons a l ih =>
    intro init h0
    simp only [List.foldl_cons]
    refine ih (fun b hb => hl b (List.mem_cons_of_mem a hb)) _ ?_
    have ha := hl a (List.mem_cons_self a l)
    linarith

theorem stepLevel_bounds (b : BatterySettings) (pOn : Bool) (cons level : ℚ)
    (hcap : 0 < b.capacity) (hchg : 0 ≤ b.chargingPower) (hcons : 0 ≤ cons)
    (hrange : b.minDischarge ≤ b.maxCharge)
    (hlo : b.minDischarge ≤ level) (hhi : level ≤ b.maxCharge) :
    b.minDischarge ≤ stepLevel b pOn cons level ∧
      stepLevel b pOn cons level ≤ b.maxCharge := by
  unfold stepLevel
  cases pOn with
  | false =>
    simp only [Bool.false_eq_true, if_false]
    have hr : 0 ≤ cons / b.capacity * 100 := by positivity
    exact ⟨le_max_left _ _, max_le hrange (by linarith)⟩
  | true =>
    simp only [if_true]
    have hr : 0 ≤ b.chargingPower / b.capacity * 100 := by positivity
    exact ⟨le_min hrange (by linarith), min_le_left _ _⟩

theorem timelineLoop_length (b : BatterySettings) (apps : List Appliance)
    (pp : List TimeRange) (s : ℤ) :
    ∀ (fuel i : ℕ) (level : ℚ), (timelineLoop b apps pp s i fuel level).length = fuel := by
  intro fuel
  induction fuel with
  | zero => intro i level; simp [timelineLoop]
  | succ n ih => intro i level; simp [timelineLoop, ih]

theorem timelineLoop_bounds (b : BatterySettings) (apps : List Appliance)
    (pp : List TimeRange) (s : ℤ)
    (hcap : 0 < b.capacity) (hchg : 0 ≤ b.chargingPower)
    (hpow : ∀ a ∈ apps, 0 ≤ a.power) (hrange : b.minDischarge ≤ b.maxCharge)
    (kmin kmax : ℤ) (hkmin : b.minDischarge = (kmin : ℚ) / 10)
    (hkmax : b.maxCharge = (kmax : ℚ) / 10) :
    ∀ (fuel i : ℕ) (level : ℚ), b.minDischarge ≤ level → level ≤ b.maxCharge →
      ∀ p ∈ timelineLoop b apps pp s i fuel level,
        b.minDischarge ≤ p.batteryLevel ∧ p.batteryLevel ≤ b.maxCharge := by
  intro fuel
  induction fuel with
  | zero => intro i level _ _ p hp; simp [timelineLoop] at hp
  | succ n ih =>
    intro i level hlo hhi p hp
    simp only [timelineLoop, List.mem_cons] at hp
    have hcons : 0 ≤ (if isPowerAvailable (((s + (i : ℤ)).tmod 24 : ℤ) : ℚ) pp then 0
        else (activeAppliancesAt apps (((s + (i : ℤ)).tmod 24 : ℤ) : ℚ)).foldl
          (fun sum a => sum + a.power) 0) := by
      split
      · exact le_refl 0
      · refine foldl_add_power_nonneg _ ?_ 0 (le_refl 0)
        intro a ha
        exact hpow a (List.mem_filter.mp ha).1
    have hstep := stepLevel_bounds b
      (isPowerAvailable (((s + (i : ℤ)).tmod 24 : ℤ) : ℚ) pp) _ level
      hcap hchg hcons hrange hlo hhi
    rcases hp with hp | hp
    · subst hp
      constructor
      · calc b.minDischarge = round1 ((kmin : ℚ) / 10) := by rw [round1_tenths, hkmin]
          _ ≤ round1 (stepLevel b _ _ level) := round1_mono (by rw [← hkmin]; exact hstep.1)
      · calc round1 (stepLevel b _ _ level)
            ≤ round1 ((kmax : ℚ) / 10) := round1_mono (by rw [← hkmax]; exact hstep.2)
          _ = b.maxCharge := by rw [round1_tenths, hkmax]
    · exact ih (i+1) _ hstep.1 hstep.2 p hp

/-! ## Claim theorems -/

/-- C1: for every battery settings, appliance list, power schedule and reference
hour, `canSurviveOutage` is true iff every one of the 24 emitted timeline
points has `batteryLevel` strictly greater than `battery.minDischarge` (a point
equal to `minDischarge` makes the flag false). -/
theorem canSurviveOutage_iff_all_points_above_floor (battery : BatterySettings)
    (appliances : List Appliance) (powerSchedule : PowerSchedule) (currentHour : ℚ) :
    ((calculateBatteryStatus battery appliances powerSchedule currentHour).canSurviveOutage
        = true ↔
      ∀ p ∈ (calculateBatteryStatus battery appliances powerSchedule currentHour).timelineData,
        battery.minDischarge < p.batteryLevel)
    ∧ (calculateBatteryStatus battery appliances powerSchedule currentHour).timelineData.length
        = 24 := by
  constructor
  · simp only [calculateBatteryStatus, checkSurvival, List.all_eq_true, decide_eq_true_eq]
  · simp only [calculateBatteryStatus, generateTimeline]
    exact timelineLoop_length battery appliances powerSchedule.periods ⌊currentHour⌋ 24 0
      battery.currentCharge

/-- C2 counterexample: the claimed bounds fail for inputs the claim explicitly
ranges over.  With `currentCharge = 150` above `maxCharge = 95` (and no grid,
no appliances) the emitted `batteryLevel` stays at 150 > `maxCharge`; and with
`minDischarge = currentCharge = 10.04` the one-decimal rounding emits 10.0,
strictly below `minDischarge`. -/
theorem timeline_bounds_counterexample :
    ((⟨0, 150, 0, false, []⟩ : TimelinePoint) ∈
        (calculateBatteryStatus ⟨100, 10, 95, 150, 5⟩ [] ⟨[]⟩ 0).timelineData
      ∧ ¬((150 : ℚ) ≤ (⟨100, 10, 95, 150, 5⟩ : BatterySettings).maxCharge))
    ∧ ((⟨0, 10, 0, false, []⟩ : TimelinePoint) ∈
        (calculateBatteryStatus ⟨100, 1004/100, 95, 1004/100, 5⟩ [] ⟨[]⟩ 0).timelineData
      ∧ ¬((⟨100, 1004/100, 95, 1004/100, 5⟩ : BatterySettings).minDischarge ≤ (10 : ℚ))) := by
  with_unfolding_all decide

/-- C2 amended: for inputs in the simulator's intended domain — positive
capacity, nonnegative charger power and appliance powers, `currentCharge`
inside `[minDischarge, maxCharge]`, and the two bounds expressible in tenths
(as all percentage settings in the application are) — every emitted timeline
point's `batteryLevel` lies within `[minDischarge, maxCharge]`. -/
theorem timeline_batteryLevel_bounds (b : BatterySettings) (apps : List Appliance)
    (ps : PowerSchedule) (h : ℚ)
    (hcap : 0 < b.capacity) (hchg : 0 ≤ b.chargingPower)
    (hpow : ∀ a ∈ apps, 0 ≤ a.power)
    (hlo : b.minDischarge ≤ b.currentCharge) (hhi : b.currentCharge ≤ b.maxCharge)
    (kmin kmax : ℤ) (hkmin : b.minDischarge = (kmin : ℚ) / 10)
    (hkmax : b.maxCharge = (kmax : ℚ) / 10)
    (p : TimelinePoint)
    (hp : p ∈ (calculateBatteryStatus b apps ps h).timelineData) :
    b.minDischarge ≤ p.batteryLevel ∧ p.batteryLevel ≤ b.maxCharge := by
  have hp' : p ∈ timelineLoop b apps ps.periods ⌊h⌋ 0 24 b.currentCharge := by
    simpa [calculateBatteryStatus, generateTimeline] using hp
  exact timelineLoop_bounds b apps ps.periods ⌊h⌋ hcap hchg hpow (hlo.trans hhi)
    kmin kmax hkmin hkmax 24 0 b.currentCharge hlo hhi p hp'

theorem timeline_batteryLevel_bounds_witness :
    (10 : ℚ) ≤ (50 : ℚ) ∧ (50 : ℚ) ≤ (95 : ℚ) :=
  timeline_batteryLevel_bounds ⟨100, 10, 95, 50, 5⟩ [] ⟨[]⟩ 0 (by norm_num) (by norm_num)
    (by simp) (by norm_num) (by norm_num) 100 950 (by norm_num) (by norm_num)
    ⟨0, 50, 0, false, []⟩ (by with_unfolding_all decide)

/-- C5 counterexample: with positive charger power and the battery already full
(`currentCharge = maxCharge = 95`), `chargeTime` is 0 — the formula value —
not the 999 sentinel the claim asserts for the already-full case. -/
theorem chargeTime_full_counterexample :
    ((0 : ℚ) < (⟨100, 10, 95, 95, 5⟩ : BatterySettings).chargingPower
      ∧ (⟨100, 10, 95, 95, 5⟩ : BatterySettings).maxCharge
          ≤ (⟨100, 10, 95, 95, 5⟩ : BatterySettings).currentCharge)
    ∧ (calculateBatteryStatus ⟨100, 10, 95, 95, 5⟩ [] ⟨[]⟩ 0).chargeTime = 0
    ∧ (0 : ℚ) ≠ 999 := by
  with_unfolding_all decide

/-- C5 amended: `chargeTime` is always a finite rational: it equals
`capacity * (maxCharge - currentCharge) / 100 / chargingPower` whenever
`chargingPower > 0` (including when the battery is already full, where this is
zero or negative), and equals the 999 sentinel exactly when
`chargingPower ≤ 0`. -/
theorem chargeTime_formula (battery : BatterySettings) (appliances : List Appliance)
    (powerSchedule : PowerSchedule) (currentHour : ℚ) :
    (0 < battery.chargingPower →
      (calculateBatteryStatus battery appliances powerSchedule currentHour).chargeTime
        = battery.capacity * (battery.maxCharge - battery.currentCharge) / 100
            / battery.chargingPower)
    ∧ (battery.chargingPower ≤ 0 →
      (calculateBatteryStatus battery appliances powerSchedule currentHour).chargeTime
        = 999) := by
  simp only [calculateBatteryStatus]
  constructor
  · intro hc
    rw [if_pos hc]
    rfl
  · intro hc
    rw [if_neg (not_lt.mpr hc)]
    rfl

theorem chargeTime_formula_witness :
    (calculateBatteryStatus ⟨100, 10, 95, 50, 5⟩ [] ⟨[]⟩ 0).chargeTime
      = (100 : ℚ) * (95 - 50) / 100 / 5 :=
  (chargeTime_formula ⟨100, 10, 95, 50, 5⟩ [] ⟨[]⟩ 0).1 (by norm_num)

/-- C3: the point-inclusion predicate over a list of time ranges returns false
for an empty list; a range with `start ≤ end` matches exactly on
`[start, end)`; a range with `start > end` wraps and matches exactly on
`[start, 24) ∪ [0, end)` (for hours in `[0, 24)` this is `h ≥ start ∨ h < end`);
the result is the OR over all ranges; appliance-schedule matching uses the
identical algebra on nonempty schedules; a degenerate range with
`start = end` matches no hour. -/
theorem isInRange_semantics :
    (∀ h : ℚ, isPowerAvailable h [] = false)
    ∧ (∀ (h : ℚ) (ranges : List TimeRange),
        (isPowerAvailable h ranges = true ↔
          ∃ r ∈ ranges,
            (r.start ≤ r.«end» ∧ r.start ≤ h ∧ h < r.«end») ∨
            (r.«end» < r.start ∧ (r.start ≤ h ∨ h < r.«end»))))
    ∧ (∀ (a : Appliance) (h : ℚ), a.schedule ≠ [] →
        isApplianceActive a h = isPowerAvailable h a.schedule)
    ∧ (∀ h : ℚ, 0 ≤ h → h < 24 →
        (isPowerAvailable h [⟨22, 6⟩] = true ↔ (22 ≤ h ∨ h < 6)))
    ∧ (∀ (s h : ℚ), isPowerAvailable h [⟨s, s⟩] = false) := by
  refine ⟨fun h => rfl, ?_, ?_, ?_, ?_⟩
  · intro h ranges
    unfold isPowerAvailable
    split
    · rename_i hlen
      rw [List.length_eq_zero] at hlen
      subst hlen
      simp
    · rw [List.any_eq_true]
      constructor
      · rintro ⟨r, hr, hpred⟩
        refine ⟨r, hr, ?_⟩
        by_cases hc : r.start ≤ r.«end»
        · rw [if_pos hc] at hpred
          simp only [Bool.and_eq_true, decide_eq_true_eq] at hpred
          exact Or.inl ⟨hc, hpred.1, hpred.2⟩
        · rw [if_neg hc] at hpred
          simp only [Bool.or_eq_true, decide_eq_true_eq] at hpred
          exact Or.inr ⟨lt_of_not_le hc, hpred⟩
      · rintro ⟨r, hr, hcase⟩
        refine ⟨r, hr, ?_⟩
        rcases hcase with ⟨hc, h1, h2⟩ | ⟨hc, hor⟩
        · rw [if_pos hc]
          simp [h1, h2]
        · rw [if_neg (not_le.mpr hc)]
          simp [hor]
  · intro a h hne
    have hlen : ¬(a.schedule.length = 0) := by
      simpa [List.length_eq_zero] using hne
    unfold isApplianceActive isPowerAvailable
    rw [if_neg hlen, if_neg hlen]
  · intro h _ _
    unfold isPowerAvailable
    rw [if_neg (by simp)]
    simp only [List.any_cons, List.any_nil, Bool.or_false]
    rw [if_neg (by norm_num)]
    simp
  · intro s h
    unfold isPowerAvailable
    rw [if_neg (by simp)]
    simp only [List.any_cons, List.any_nil, Bool.or_false]
    rw [if_pos (le_refl s)]
    by_cases hs : s ≤ h
    · simp [not_lt.mpr hs]
    · simp [hs]

theorem isInRange_semantics_witness :
    isApplianceActive ⟨"water", "Water", "Вода", "💧", 2, true, "blue", [⟨8, 10⟩]⟩ 9
        = isPowerAvailable 9 [⟨8, 10⟩]
    ∧ (isPowerAvailable 23 [⟨22, 6⟩] = true ↔ ((22 : ℚ) ≤ 23 ∨ (23 : ℚ) < 6)) :=
  ⟨isInRange_semantics.2.2.1 ⟨"water", "Water", "Вода", "💧", 2, true, "blue", [⟨8, 10⟩]⟩ 9
      (by simp),
   isInRange_semantics.2.2.2.1 23 (by norm_num) (by norm_num)⟩

/-! ## Infinity-order helper lemmas (for the recommendation generator) -/

theorem qinfLe_refl (a : Option ℚ) : qinfLe a a = true := by
  cases a <;> simp [qinfLe, qinfLt]

theorem qinfLe_trans {a b c : Option ℚ} (h1 : qinfLe a b = true) (h2 : qinfLe b c = true) :
    qinfLe a c = true := by
  cases a <;> cases b <;> cases c <;> simp_all [qinfLe, qinfLt]
  linarith

theorem qinfLt_le_of_false {a b : Option ℚ} (h : qinfLt a b = false) : qinfLe b a = true := by
  simp [qinfLe, h]

theorem qinfLe_of_lt {a b : Option ℚ} (h : qinfLt a b = true) : qinfLe a b = true := by
  cases a <;> cases b <;> simp_all [qinfLe, qinfLt]
  linarith

theorem foldMin_le_init (h : ℚ) :
    ∀ (l : List TimeRange) (acc : Option ℚ),
      qinfLe (l.foldl (fun acc period =>
        if qinfLt (some (nextOnDelta h period)) acc then some (nextOnDelta h period)
        else acc) acc) acc = true := by
  intro l
  induction l with
  | nil => intro acc; exact qinfLe_refl acc
  | cons q l ih =>
    intro acc
    simp only [List.foldl_cons]
    refine qinfLe_trans (ih _) ?_
    split
    · rename_i hq
      exact qinfLe_of_lt hq
    · exact qinfLe_refl acc

theorem foldMin_le_mem (h : ℚ) :
    ∀ (l : List TimeRange) (acc : Option ℚ) (p : TimeRange), p ∈ l →
      qinfLe (l.foldl (fun acc period =>
        if qinfLt (some (nextOnDelta h period)) acc then some (nextOnDelta h period)
        else acc) acc) (some (nextOnDelta h p)) = true := by
  intro l
  induction l with
  | nil => intro acc p hp; simp at hp
  | cons q l ih =>
    intro acc p hp
    simp only [List.foldl_cons]
    rcases List.mem_cons.mp hp with rfl | hp
    · refine qinfLe_trans (foldMin_le_init h l _) ?_
      split
      · exact qinfLe_refl _
      · rename_i hq
        rw [Bool.not_eq_true] at hq
        exact qinfLt_le_of_false hq
    · exact ih _ p hp

theorem foldMin_attained (h : ℚ) :
    ∀ (l : List TimeRange) (acc : Option ℚ),
      l.foldl (fun acc period =>
        if qinfLt (some (nextOnDelta h period)) acc then some (nextOnDelta h period)
        else acc) acc = acc ∨
      ∃ p ∈ l, l.foldl (fun acc period =>
        if qinfLt (some (nextOnDelta h period)) acc then some (nextOnDelta h period)
        else acc) acc = some (nextOnDelta h p) := by
  intro l
  induction l with
  | nil => intro acc; exact Or.inl rfl
  | cons q l ih =>
    intro acc
    simp only [List.foldl_cons]
    rcases ih (if qinfLt (some (nextOnDelta h q)) acc then some (nextOnDelta h q) else acc)
      with heq | ⟨p, hp, heq⟩
    · rw [heq]
      split
      · exact Or.inr ⟨q, List.mem_cons_self q l, rfl⟩
      · exact Or.inl rfl
    · exact Or.inr ⟨p, List.mem_cons_of_mem q hp, heq⟩

theorem eq_of_mem_ite_singleton_pos {α : Type} {x y : α} {c : Prop} [Decidable c]
    (h : x ∈ if c then [y] else ([] : List α)) : x = y := by
  split at h
  · simpa using h
  · simp at h

theorem eq_of_mem_ite_singleton_neg {α : Type} {x y : α} {c : Prop} [Decidable c]
    (h : x ∈ if c then ([] : List α) else [y]) : x = y := by
  split at h
  · simp at h
  · simpa using h

theorem not_mem_ite_of_not_mem {α : Type} {x : α} {c : Prop} [Decidable c]
    {l1 l2 : List α} (h1 : x ∉ l1) (h2 : x ∉ l2) : x ∉ if c then l1 else l2 := by
  split
  · exact h1
  · exact h2

theorem recWarnShed_ne_suggestOff (names : String) : recWarnShed ≠ recSuggestOff names := by
  intro hEq
  have hh : recWarnShed.data.head? = (recSuggestOff names).data.head? := by rw [hEq]
  rw [show recWarnShed.data.head? = some '🔌' from rfl,
    show (recSuggestOff names).data.head? = some '💡' from rfl] at hh
  exact absurd (Option.some.inj hh) (by decide)

/-- C7: in the recommendation generator, `hoursUntilPowerOn` is 0 when the grid
is available at the reference hour; otherwise it is the minimum over all power
periods of `period.start - referenceHour` corrected by adding 24 when the raw
subtraction is ≤ 0 (a lower bound of all corrected deltas that is attained on
some period, or `Infinity` when there are no periods); and the "must shed load
before power returns" warning is emitted exactly when
`hoursRemaining < hoursUntilPowerOn` and more than one appliance is enabled. -/
theorem hoursUntilPowerOn_spec (battery : BatterySettings) (appliances : List Appliance)
    (hoursRemaining : Option ℚ) (canSurvive : Bool) (powerPeriods : List TimeRange)
    (currentHour : ℚ) :
    (isPowerAvailable currentHour powerPeriods = true →
      hoursUntilPowerOn powerPeriods currentHour = some 0)
    ∧ (isPowerAvailable currentHour powerPeriods = false →
        (∀ period ∈ powerPeriods,
          qinfLe (hoursUntilPowerOn powerPeriods currentHour)
            (some (nextOnDelta currentHour period)) = true)
        ∧ (hoursUntilPowerOn powerPeriods currentHour = none ∨
            ∃ period ∈ powerPeriods,
              hoursUntilPowerOn powerPeriods currentHour
                = some (nextOnDelta currentHour period)))
    ∧ (recWarnShed ∈ generateRecommendations battery appliances hoursRemaining canSurvive
          powerPeriods currentHour ↔
        (qinfLt hoursRemaining (hoursUntilPowerOn powerPeriods currentHour) = true
          ∧ 1 < (appliances.filter fun a => a.enabled).length)) := by
  refine ⟨?_, ?_, ?_⟩
  · intro hOn
    unfold hoursUntilPowerOn
    rw [if_pos hOn]
  · intro hOff
    unfold hoursUntilPowerOn
    rw [if_neg (by simp [hOff])]
    exact ⟨fun period hper => foldMin_le_mem currentHour powerPeriods none period hper,
      foldMin_attained currentHour powerPeriods none⟩
  · by_cases hc5 : (qinfLt hoursRemaining (hoursUntilPowerOn powerPeriods currentHour)
        && decide (1 < (appliances.filter fun a => a.enabled).length)) = true
    · simp only [generateRecommendations, hc5, if_true]
      rw [if_neg (by simp)]
      constructor
      · intro _
        simpa only [Bool.and_eq_true, decide_eq_true_eq] using hc5
      · intro _
        simp
    · simp only [generateRecommendations, if_neg hc5, List.append_nil]
      refine iff_of_false ?_ ?_
      · refine not_mem_ite_of_not_mem (by decide) ?_
        intro hmem
        simp only [List.mem_append] at hmem
        rcases hmem with ((hm | hm) | hm) | hm
        · exact absurd (eq_of_mem_ite_singleton_neg hm) (by decide)
        · exact absurd (eq_of_mem_ite_singleton_pos hm) (by decide)
        · exact absurd (eq_of_mem_ite_singleton_pos hm) (by decide)
        · exact recWarnShed_ne_suggestOff _ (eq_of_mem_ite_singleton_pos hm)
      · intro hcon
        exact hc5 (by simp [hcon.1, hcon.2])

theorem hoursUntilPowerOn_spec_witness :
    hoursUntilPowerOn [⟨5, 7⟩] 6 = some 0
    ∧ recWarnShed ∈ generateRecommendations ⟨100, 10, 95, 50, 5⟩
        [⟨"water", "Water", "Вода", "💧", 2, true, "blue", []⟩,
         ⟨"heating", "Heating", "Опалення", "🔥", 4, true, "red", []⟩]
        (some 1) true [⟨5, 7⟩] 3 :=
  ⟨(hoursUntilPowerOn_spec ⟨100, 10, 95, 50, 5⟩ [] none true [⟨5, 7⟩] 6).1
      (by with_unfolding_all decide),
   ((hoursUntilPowerOn_spec ⟨100, 10, 95, 50, 5⟩
        [⟨"water", "Water", "Вода", "💧", 2, true, "blue", []⟩,
         ⟨"heating", "Heating", "Опалення", "🔥", 4, true, "red", []⟩]
        (some 1) true [⟨5, 7⟩] 3).2.2).mpr
      ⟨by with_unfolding_all decide, by with_unfolding_all decide⟩⟩

/-! ## Bounded forward-scan helper lemmas (for the situation analyzer) -/

theorem find?_range'_eq_some_of_first (p : ℕ → Bool) :
    ∀ (n a i : ℕ), a ≤ i → i < a + n → p i = true →
      (∀ j, a ≤ j → j < i → p j = false) →
      (List.range' a n).find? p = some i := by
  intro n
  induction n with
  | zero => intro a i h1 h2 _ _; exact absurd h1 (by omega)
  | succ m ih =>
    intro a i h1 h2 hp hprev
    rw [List.range'_succ]
    by_cases ha : a = i
    · subst ha
      exact List.find?_cons_of_pos _ hp
    · have hpa : p a = false := hprev a (le_refl a) (by omega)
      rw [List.find?_cons_of_neg _ (by simp [hpa])]
      exact ih (a+1) i (by omega) (by omega) hp (fun j hj1 hj2 => hprev j (by omega) hj2)

theorem find?_range'_eq_none (p : ℕ → Bool) :
    ∀ (n a : ℕ), (∀ j, a ≤ j → j < a + n → p j = false) →
      (List.range' a n).find? p = none := by
  intro n
  induction n with
  | zero => intro a _; rfl
  | succ m ih =>
    intro a hall
    rw [List.range'_succ]
    rw [List.find?_cons_of_neg _ (by simp [hall a (le_refl a) (by omega)])]
    exact ih (a+1) (fun j h1 h2 => hall j (by omega) (by omega))

/-- C8: `analyzeSituation` returns `hoursToNextPowerOn = 0` when grid power is
available at `floor(referenceHour)`; otherwise it is the smallest `i` in
`1..24` such that grid power is available at `(floor(referenceHour) + i) mod
24`, defaulting to 24 when no such `i` exists, and never exceeds 24; and
`hoursToNextOutage` is 0 whenever `isPowerOnNow` is false. -/
theorem hoursToNextPowerOn_spec (b : BatterySettings) (ps : PowerSchedule) (h : ℚ) :
    ((analyzeSituation b ps h).isPowerOnNow = true →
      (analyzeSituation b ps h).hoursToNextPowerOn = 0)
    ∧ ((analyzeSituation b ps h).isPowerOnNow = false →
        ∀ i : ℕ, 1 ≤ i → i ≤ 24 →
          isPowerOn (((⌊h⌋ + (i : ℤ)).tmod 24 : ℤ) : ℚ) ps.periods = true →
          (∀ j : ℕ, 1 ≤ j → j < i →
            isPowerOn (((⌊h⌋ + (j : ℤ)).tmod 24 : ℤ) : ℚ) ps.periods = false) →
          (analyzeSituation b ps h).hoursToNextPowerOn = i)
    ∧ ((analyzeSituation b ps h).isPowerOnNow = false →
        (∀ i : ℕ, 1 ≤ i → i ≤ 24 →
          isPowerOn (((⌊h⌋ + (i : ℤ)).tmod 24 : ℤ) : ℚ) ps.periods = false) →
        (analyzeSituation b ps h).hoursToNextPowerOn = 24)
    ∧ (analyzeSituation b ps h).hoursToNextPowerOn ≤ 24
    ∧ ((analyzeSituation b ps h).isPowerOnNow = false →
        (analyzeSituation b ps h).hoursToNextOutage = 0) := by
  refine ⟨?_, ?_, ?_, ?_, ?_⟩
  · intro hNow
    simp only [analyzeSituation] at hNow ⊢
    rw [if_pos hNow]
  · intro hNow i h1 h24 hOn hFirst
    simp only [analyzeSituation] at hNow ⊢
    rw [if_neg (by simp [hNow])]
    rw [find?_range'_eq_some_of_first _ 24 1 i h1 (by omega) hOn hFirst]
    rfl
  · intro hNow hAll
    simp only [analyzeSituation] at hNow ⊢
    rw [if_neg (by simp [hNow])]
    rw [find?_range'_eq_none _ 24 1 (fun j hj1 hj2 => hAll j hj1 (by omega))]
    rfl
  · simp only [analyzeSituation]
    split
    · exact Nat.zero_le 24
    · rcases hfind : (List.range' 1 24).find?
          (fun i : ℕ => isPowerOn (((⌊h⌋ + (i : ℤ)).tmod 24 : ℤ) : ℚ) ps.periods)
        with _ | i
      · simp
      · have hi := List.mem_of_find?_eq_some hfind
        rw [List.mem_range'] at hi
        obtain ⟨k, hk, rfl⟩ := hi
        simp only [Option.getD_some]
        omega
  · intro hNow
    simp only [analyzeSituation] at hNow ⊢
    rw [if_neg (by simp [hNow])]

theorem hoursToNextPowerOn_spec_witness :
    (analyzeSituation ⟨100, 10, 95, 50, 5⟩ ⟨[⟨5, 7⟩]⟩ 2).hoursToNextPowerOn = 3
    ∧ (analyzeSituation ⟨100, 10, 95, 50, 5⟩ ⟨[⟨5, 7⟩]⟩ 2).hoursToNextOutage = 0 :=
  ⟨(hoursToNextPowerOn_spec ⟨100, 10, 95, 50, 5⟩ ⟨[⟨5, 7⟩]⟩ 2).2.1
      (by with_unfolding_all decide) 3 (by norm_num) (by norm_num)
      (by with_unfolding_all decide)
      (fun j hj1 hj2 => by interval_cases j <;> with_unfolding_all decide),
   (hoursToNextPowerOn_spec ⟨100, 10, 95, 50, 5⟩ ⟨[⟨5, 7⟩]⟩ 2).2.2.2.2
      (by with_unfolding_all decide)⟩

/-! ## Hour-of-day rotation lemmas (for `totalOutageHours`) -/

theorem intTmod24_natCast (m : ℕ) : (m : ℤ).tmod 24 = ((m % 24 : ℕ) : ℤ) := rfl

theorem countP_range'_mod24_shift (q : ℕ → Bool) (hq : ∀ j, q (j + 24) = q j) :
    ∀ n : ℕ, (List.range' n 24).countP q = (List.range' 0 24).countP q := by
  intro n
  induction n with
  | zero => rfl
  | succ m ih =>
    rw [← ih]
    have hsplit : List.range' (m+1) 24 = List.range' (m+1) 23 ++ [(m+1) + 1 * 23] :=
      List.range'_concat (m+1) 23
    have hcons : List.range' m 24 = m :: List.range' (m+1) 23 := rfl
    rw [hsplit, hcons, List.countP_append, List.countP_cons]
    have h24 : (m+1) + 1 * 23 = m + 24 := by ring
    rw [h24]
    simp [List.countP_cons, hq m]

theorem totalOutage_count_shift (periods : List TimeRange) (n : ℕ) :
    ((List.range 24).filter fun (i : ℕ) =>
        !isPowerOn ((((n : ℤ) + (i : ℤ)).tmod 24 : ℤ) : ℚ) periods).length
      = ((List.range 24).filter fun (hr : ℕ) => !isPowerOn ((hr : ℚ)) periods).length := by
  rw [← List.countP_eq_length_filter, ← List.countP_eq_length_filter]
  have hpt : (fun i : ℕ => !isPowerOn ((((n : ℤ) + (i : ℤ)).tmod 24 : ℤ) : ℚ) periods)
      = ((fun j : ℕ => !isPowerOn (((j % 24 : ℕ) : ℚ)) periods) ∘ (fun i : ℕ => n + i)) := by
    funext i
    simp only [Function.comp_apply]
    have hcast : ((n : ℤ) + (i : ℤ)) = ((n + i : ℕ) : ℤ) := by push_cast; ring
    rw [hcast, intTmod24_natCast, Int.cast_natCast]
  rw [hpt, ← List.countP_map, ← List.range'_eq_map_range]
  rw [countP_range'_mod24_shift _ (fun j => by simp [Nat.add_mod_right]) n]
  rw [← List.range_eq_range']
  rw [List.countP_eq_length_filter, List.countP_eq_length_filter]
  apply congrArg List.length
  apply List.filter_congr
  intro i hi
  rw [Nat.mod_eq_of_lt (List.mem_range.mp hi)]

/-- C10: `totalOutageHours` is independent of the reference hour: for any two
reference hours (in the declared 0–24 domain) `analyzeSituation` yields the
same `totalOutageHours`, namely the number of integer hours in `0..23` at
which grid power is unavailable — the 24 scanned hours
`(floor(h) + i) mod 24` cover each hour-of-day exactly once. -/
theorem totalOutageHours_reference_invariant (b : BatterySettings) (ps : PowerSchedule)
    (h1 h2 : ℚ) (hh1 : 0 ≤ h1) (hh2 : 0 ≤ h2) :
    (analyzeSituation b ps h1).totalOutageHours = (analyzeSituation b ps h2).totalOutageHours
    ∧ (analyzeSituation b ps h1).totalOutageHours
        = ((List.range 24).filter fun (hr : ℕ) => !isPowerOn ((hr : ℚ)) ps.periods).length := by
  have key : ∀ h : ℚ, 0 ≤ h → (analyzeSituation b ps h).totalOutageHours
      = ((List.range 24).filter fun (hr : ℕ) => !isPowerOn ((hr : ℚ)) ps.periods).length := by
    intro h hh
    obtain ⟨n, hn⟩ : ∃ n : ℕ, ⌊h⌋ = (n : ℤ) :=
      ⟨⌊h⌋.toNat, (Int.toNat_of_nonneg (Int.floor_nonneg.mpr hh)).symm⟩
    simp only [analyzeSituation]
    rw [hn]
    exact totalOutage_count_shift ps.periods n
  exact ⟨(key h1 hh1).trans (key h2 hh2).symm, key h1 hh1⟩

theorem totalOutageHours_reference_invariant_witness :
    (analyzeSituation ⟨100, 10, 95, 50, 5⟩ ⟨[⟨1, 3⟩]⟩ 2).totalOutageHours
        = (analyzeSituation ⟨100, 10, 95, 50, 5⟩ ⟨[⟨1, 3⟩]⟩ 7).totalOutageHours
    ∧ (analyzeSituation ⟨100, 10, 95, 50, 5⟩ ⟨[⟨1, 3⟩]⟩ 2).totalOutageHours
        = ((List.range 24).filter fun (hr : ℕ) =>
            !isPowerOn ((hr : ℚ)) [(⟨1, 3⟩ : TimeRange)]).length :=
  totalOutageHours_reference_invariant ⟨100, 10, 95, 50, 5⟩ ⟨[⟨1, 3⟩]⟩ 2 7
    (by norm_num) (by norm_num)

/-! ## Stability of the insertion sort under a total preorder -/

theorem filter_orderedInsert_of_equiv {α : Type} (r : α → α → Prop) [DecidableRel r]
    (p : α → Bool) (hp : ∀ a b, p a = true → p b = true → r a b) (x : α) :
    ∀ l : List α, (l.orderedInsert r x).filter p = (x :: l).filter p := by
  intro l
  induction l with
  | nil => rfl
  | cons b l ih =>
    rw [List.orderedInsert]
    split
    · rfl
    · rename_i hrxb
      rcases hpx : p x with _ | _
      · rcases hpb : p b with _ | _
        · simp only [List.filter_cons, hpx, hpb, ih, Bool.false_eq_true, if_false]
        · simp only [List.filter_cons, hpx, hpb, ih, Bool.false_eq_true, if_false, if_true]
      · have hpb : p b = false := by
          rcases hb : p b with _ | _
          · rfl
          · exact absurd (hp x b hpx hb) hrxb
        simp only [List.filter_cons, hpx, hpb, ih, Bool.false_eq_true, if_false, if_true]

theorem filter_insertionSort_of_equiv {α : Type} (r : α → α → Prop) [DecidableRel r]
    (p : α → Bool) (hp : ∀ a b, p a = true → p b = true → r a b) :
    ∀ l : List α, (l.insertionSort r).filter p = l.filter p := by
  intro l
  induction l with
  | nil => rfl
  | cons x l ih =>
    rw [List.insertionSort, filter_orderedInsert_of_equiv r p hp]
    simp only [List.filter_cons, ih]

/-- C4: in `generateScenarios` output, no infeasible scenario precedes a
feasible one; within the same feasibility class scenarios appear in tier order
comfort, balanced, economy, emergency (`tagOrder` nondecreasing); and
scenarios equal on both sort keys appear in catalog-declaration order — the
sort is stable, so filtering the output by any (feasibility, tier) key yields
exactly the same subsequence as filtering the declared candidate list. -/
theorem generateScenarios_sorted_stable (battery : BatterySettings)
    (baseAppliances : List Appliance) (powerSchedule : PowerSchedule) (currentHour : ℚ) :
    (generateScenarios battery baseAppliances powerSchedule currentHour).Pairwise
      (fun s t => (s.feasible = false → t.feasible = false)
        ∧ (s.feasible = t.feasible → tagOrder s.tag ≤ tagOrder t.tag))
    ∧ ∀ (f : Bool) (t : Tag),
        (generateScenarios battery baseAppliances powerSchedule currentHour).filter
            (fun s => s.feasible == f && decide (s.tag = t))
          = (scenarioCandidates battery baseAppliances powerSchedule currentHour).filter
            (fun s => s.feasible == f && decide (s.tag = t)) := by
  constructor
  · have hs := List.sorted_insertionSort scenLE
      (scenarioCandidates battery baseAppliances powerSchedule currentHour)
    refine List.Pairwise.imp ?_ hs
    intro s t hle
    unfold scenLE scenCmp at hle
    constructor
    · intro hsf
      rcases ht : t.feasible with _ | _
      · rfl
      · rw [hsf, ht] at hle
        simp at hle
    · intro heq
      rw [heq] at hle
      simp only [ne_eq, not_true_eq_false, if_false, ite_self] at hle
      omega
  · intro f t
    exact filter_insertionSort_of_equiv scenLE _
      (fun a b ha hb => by
        simp only [Bool.and_eq_true, beq_iff_eq, decide_eq_true_eq] at ha hb
        unfold scenLE scenCmp
        rw [ha.1, hb.1, ha.2, hb.2]
        simp) _

/-! ## Override-application lemmas (for the scenario catalog) -/

theorem mem_ite_singleton_cases {α : Type} {x y z : α} {c : Prop} [Decidable c]
    (h : x ∈ if c then [y] else [z]) : x = y ∨ x = z := by
  split at h
  · exact Or.inl (by simpa using h)
  · exact Or.inr (by simpa using h)

theorem applyOverrides_mem (base : List Appliance) (ovr : List (String × Override))
    (a : Appliance) (ha : a ∈ applyOverrides base ovr) :
    ∃ b ∈ base,
      (List.find? (fun o => o.1 == b.id) ovr = none ∧ a = b) ∨
      (∃ k o, List.find? (fun o => o.1 == b.id) ovr = some (k, o) ∧
        a = { b with enabled := o.enabled.getD b.enabled,
                     schedule := o.schedule.getD b.schedule }) := by
  simp only [applyOverrides, List.mem_map] at ha
  obtain ⟨b, hb, heq⟩ := ha
  refine ⟨b, hb, ?_⟩
  rcases hfind : List.find? (fun o => o.1 == b.id) ovr with _ | ⟨k, o⟩
  · rw [hfind] at heq
    exact Or.inl ⟨hfind, heq.symm⟩
  · rw [hfind] at heq
    exact Or.inr ⟨k, o, hfind, heq.symm⟩

theorem applyOverrides_heating (base : List Appliance) (rest : List (String × Override))
    (a : Appliance)
    (ha : a ∈ applyOverrides base (("heating", (⟨some true, some []⟩ : Override)) :: rest))
    (hid : a.id = "heating") : a.enabled = true ∧ a.schedule = [] := by
  obtain ⟨b, hb, hcase⟩ := applyOverrides_mem _ _ a ha
  by_cases hbid : b.id = "heating"
  · have hfind : List.find? (fun o => o.1 == b.id)
        (("heating", (⟨some true, some []⟩ : Override)) :: rest)
        = some ("heating", ⟨some true, some []⟩) :=
      List.find?_cons_of_pos _ (by simp [hbid])
    rcases hcase with ⟨hnone, _⟩ | ⟨k, o, hsome, heq⟩
    · rw [hnone] at hfind
      exact absurd hfind (by simp)
    · rw [hsome] at hfind
      have hko := Option.some.inj hfind
      simp only [Prod.mk.injEq] at hko
      rw [heq, hko.2]
      simp
  · exfalso
    apply hbid
    rw [← hid]
    rcases hcase with ⟨_, rfl⟩ | ⟨k, o, _, heq⟩
    · rfl
    · rw [heq]

theorem buildScenario_heating (battery : BatterySettings) (base : List Appliance)
    (ps : PowerSchedule) (h : ℚ) (id icon name : String) (tag : Tag) (descr : String)
    (rest : List (String × Override)) :
    ∀ a ∈ (buildScenario battery base ps h id icon name tag descr
        (("heating", (⟨some true, some []⟩ : Override)) :: rest)).appliances,
      a.id = "heating" → a.enabled = true ∧ a.schedule = [] := by
  intro a ha hid
  exact applyOverrides_heating base rest a (by simpa [buildScenario] using ha) hid

theorem scenarioCandidates_heating (battery : BatterySettings)
    (baseAppliances : List Appliance) (powerSchedule : PowerSchedule) (currentHour : ℚ) :
    ∀ s ∈ scenarioCandidates battery baseAppliances powerSchedule currentHour,
      ∀ a ∈ s.appliances, a.id = "heating" → a.enabled = true ∧ a.schedule = [] := by
  intro s hs
  simp only [scenarioCandidates, List.mem_append, List.mem_singleton, or_assoc] at hs
  rcases hs with h|h|h|h|h|h|h|h|h|h|h|h|h
  all_goals first
    | (rcases mem_ite_singleton_cases h with rfl | rfl <;>
        exact buildScenario_heating _ _ _ _ _ _ _ _ _ _)
    | (obtain rfl := eq_of_mem_ite_singleton_pos h;
        exact buildScenario_heating _ _ _ _ _ _ _ _ _ _)
    | (subst h; exact buildScenario_heating _ _ _ _ _ _ _ _ _ _)

/-- C9 (implicit): in every scenario returned by `generateScenarios`, every
appliance whose id is "heating" has `enabled = true` and an empty schedule
(always active): every candidate in the catalog overrides heating to run 24/7,
so no generated scenario ever turns heating off or restricts its hours. -/
theorem scenario_heating_always_on (battery : BatterySettings)
    (baseAppliances : List Appliance) (powerSchedule : PowerSchedule) (currentHour : ℚ) :
    ∀ s ∈ generateScenarios battery baseAppliances powerSchedule currentHour,
      ∀ a ∈ s.appliances, a.id = "heating" → a.enabled = true ∧ a.schedule = [] := by
  intro s hs
  rw [generateScenarios, List.mem_insertionSort] at hs
  exact scenarioCandidates_heating battery baseAppliances powerSchedule currentHour s hs

theorem list_headI_mem {α : Type} [Inhabited α] :
    ∀ {l : List α}, l ≠ [] → l.headI ∈ l
  | [], h => absurd rfl h
  | a :: l, _ => List.mem_cons_self a l

theorem scenario_heating_always_on_witness :
    ((generateScenarios ⟨100, 10, 95, 50, 5⟩
        [⟨"heating", "Heating", "Опалення", "🔥", 4, true, "red", []⟩]
        ⟨[⟨0, 24⟩]⟩ 0).headI.appliances.headI.enabled = true)
    ∧ ((generateScenarios ⟨100, 10, 95, 50, 5⟩
        [⟨"heating", "Heating", "Опалення", "🔥", 4, true, "red", []⟩]
        ⟨[⟨0, 24⟩]⟩ 0).headI.appliances.headI.schedule = []) :=
  scenario_heating_always_on ⟨100, 10, 95, 50, 5⟩
    [⟨"heating", "Heating", "Опалення", "🔥", 4, true, "red", []⟩] ⟨[⟨0, 24⟩]⟩ 0
    ((generateScenarios ⟨100, 10, 95, 50, 5⟩
        [⟨"heating", "Heating", "Опалення", "🔥", 4, true, "red", []⟩]
        ⟨[⟨0, 24⟩]⟩ 0).headI)
    (list_headI_mem (by with_unfolding_all decide))
    ((generateScenarios ⟨100, 10, 95, 50, 5⟩
        [⟨"heating", "Heating", "Опалення", "🔥", 4, true, "red", []⟩]
        ⟨[⟨0, 24⟩]⟩ 0).headI.appliances.headI)
    (list_headI_mem (by with_unfolding_all decide))
    (by with_unfolding_all decide)

/-- C6 counterexample: at reference hour 0 with grid power available all day
(no outage) and a low battery, `generateScenarios` evaluates and returns only
5 candidate scenarios — outside the claimed 12–16 range. -/
theorem scenario_count_counterexample :
    (generateScenarios ⟨100, 10, 95, 30, 5⟩ [] ⟨[⟨0, 24⟩]⟩ 0).length = 5
    ∧ ¬(12 ≤ (generateScenarios ⟨100, 10, 95, 30, 5⟩ [] ⟨[⟨0, 24⟩]⟩ 0).length
        ∧ (generateScenarios ⟨100, 10, 95, 30, 5⟩ [] ⟨[⟨0, 24⟩]⟩ 0).length ≤ 16) := by
  with_unfolding_all decide

set_option maxHeartbeats 1600000 in
/-- C6 amended: for every input, `generateScenarios` evaluates (and returns)
between 5 and 9 candidate scenarios — one battery-simulator run per candidate —
not 12–16: four catalog entries are unconditional, the time-of-day bucket
always enables at least one more, and the conditional entries can never
contribute more than five simultaneously. -/
theorem scenario_count_bounds (battery : BatterySettings) (baseAppliances : List Appliance)
    (powerSchedule : PowerSchedule) (currentHour : ℚ) :
    5 ≤ (generateScenarios battery baseAppliances powerSchedule currentHour).length
    ∧ (generateScenarios battery baseAppliances powerSchedule currentHour).length ≤ 9 := by
  rw [generateScenarios, List.length_insertionSort]
  simp only [scenarioCandidates, List.length_append, apply_ite List.length,
    List.length_singleton, List.length_nil, ite_self]
  generalize (analyzeSituation battery powerSchedule currentHour).totalOutageHours = O
  generalize ⌊currentHour⌋ = s
  generalize battery.currentCharge = c
  by_cases h70 : (70 : ℚ) ≤ c
  · have e1 : ((70 : ℚ) ≤ c ∨ ((40 : ℚ) ≤ c ∧ c < 70)) := Or.inl h70
    have e2 : ((70 : ℚ) ≤ c ∧ (0 < O ∧ O ≤ 8)) ↔ (0 < O ∧ O ≤ 8) := and_iff_right h70
    have e3 : ((0 < O ∧ O ≤ 3) ∧ ¬(c < 40)) ↔ (0 < O ∧ O ≤ 3) :=
      and_iff_left (by linarith)
    rw [if_pos e1, if_congr e2 rfl rfl, if_congr e3 rfl rfl]
    split_ifs <;> omega
  · by_cases h40 : c < 40
    · have e1 : ¬((70 : ℚ) ≤ c ∨ ((40 : ℚ) ≤ c ∧ c < 70)) := by
        rintro (hh | ⟨hh, -⟩) <;> linarith
      have e2 : ¬((70 : ℚ) ≤ c ∧ (0 < O ∧ O ≤ 8)) := fun hh => h70 hh.1
      have e3 : ¬((0 < O ∧ O ≤ 3) ∧ ¬(c < 40)) := fun hh => hh.2 h40
      rw [if_neg e1, if_neg e2, if_neg e3]
      split_ifs <;> omega
    · have e1 : ((70 : ℚ) ≤ c ∨ ((40 : ℚ) ≤ c ∧ c < 70)) :=
        Or.inr ⟨by linarith, by linarith⟩
      have e2 : ¬((70 : ℚ) ≤ c ∧ (0 < O ∧ O ≤ 8)) := fun hh => h70 hh.1
      have e3 : ((0 < O ∧ O ≤ 3) ∧ ¬(c < 40)) ↔ (0 < O ∧ O ≤ 3) := and_iff_left h40
      rw [if_pos e1, if_neg e2, if_congr e3 rfl rfl]
      split_ifs <;> omega

end BatteryCalc
